import Mathlib

/-!
Verification of the amoid identifier-conversion utility.

The definitions below are a shallow embedding of the JavaScript sources
(`index.js` and `src/cli.js`): identifier classification (`detectInput` and its
per-line classifier), SQL and CSV escaping, the SQL query builder of the
convert flow, the output formatter, and the partition command's section
rendering.  Strings are modelled as Lean `String` / `List Char`; the JavaScript
`String.prototype.replace` with a global single-character pattern is modelled
by `Amoid.rep`, and `Array.prototype.join` by `Amoid.joinWith`.
-/

namespace Amoid

/-! ## Character classes, from the regular expressions in `detectInput`
    (`index.js`): `RE_IDS = /^[0-9]+$/` and
    `RE_GUID = /^(\{[0-9a-f]{8}-[0-9a-f]{4}-[0-9a-f]{4}-[0-9a-f]{4}-[0-9a-f]{12}\}|[a-z0-9-._]*@[a-z0-9-._]+)$/i`. -/

/-- `[0-9]` -/
def isDigitC (c : Char) : Bool :=
  '0' ≤ c && c ≤ '9'

/-- `[0-9a-f]` under the `i` flag: hexadecimal digit of either case. -/
def isHexI (c : Char) : Bool :=
  isDigitC c || ('a' ≤ c && c ≤ 'f') || ('A' ≤ c && c ≤ 'F')

/-- `[a-z0-9-._]` under the `i` flag: letters of either case, digits,
    hyphen, dot, underscore. -/
def isEmailChar (c : Char) : Bool :=
  ('a' ≤ c && c ≤ 'z') || ('A' ≤ c && c ≤ 'Z') || isDigitC c ||
    c == '-' || c == '.' || c == '_'

/-- Full-string match of `^[0-9]+$`. -/
def matchesIds (l : List Char) : Bool :=
  !l.isEmpty && l.all isDigitC

/-- Consume exactly `n` hex digits from the front, returning the rest. -/
def takeHex : Nat → List Char → Option (List Char)
  | 0, l => some l
  | _ + 1, [] => none
  | n + 1, c :: l => if isHexI c then takeHex n l else none

/-- Consume a literal dash from the front. -/
def dropDash : List Char → Option (List Char)
  | [] => none
  | c :: r => if c = '-' then some r else none

/-- After the opening brace: the four dash-separated hex groups of lengths
    8, 4, 4, 4 followed by the final 12-digit group, consumed in sequence. -/
def uuidChain (r0 : List Char) : Option (List Char) :=
  ((((((((takeHex 8 r0).bind dropDash).bind
    (takeHex 4)).bind dropDash).bind
    (takeHex 4)).bind dropDash).bind
    (takeHex 4)).bind dropDash).bind
    (takeHex 12)

/-- Full-string match of the curly-braced UUID alternative
    `\{[0-9a-f]{8}-[0-9a-f]{4}-[0-9a-f]{4}-[0-9a-f]{4}-[0-9a-f]{12}\}`
    (case-insensitive): an opening brace, the dash-separated hex groups, and
    a closing brace ending the line. -/
def matchesUuid (l : List Char) : Bool :=
  match l with
  | [] => false
  | c :: r0 => c == '{' && (uuidChain r0 == some ['}'])

/-- Full-string match of the email-like alternative
    `[a-z0-9-._]*@[a-z0-9-._]+` (case-insensitive): scan the local part until
    the `@`, then require a non-empty domain of the same character class. -/
def matchesEmail : List Char → Bool
  | [] => false
  | c :: rest =>
    if c = '@' then !rest.isEmpty && rest.all isEmailChar
    else isEmailChar c && matchesEmail rest

/-- Full-string match of `RE_GUID` (either alternative). -/
def matchesGuid (l : List Char) : Bool :=
  matchesUuid l || matchesEmail l

/-- Per-line classification: the body of the loop in `detectInput`
    (`id` when `RE_IDS` matches, else `guid` when `RE_GUID` matches, else
    `slug`), which is also the Identifier Classifier of the spec. -/
def classifyLine (s : String) : String :=
  if matchesIds s.data then "id"
  else if matchesGuid s.data then "guid"
  else "slug"

/-- `detectInput` from `index.js`: count the lines matching `RE_IDS`
    (`countIds`), count the lines matching `RE_GUID` among the rest
    (`countGuids`), and compare both counts with the total number of lines. -/
def detectInput (data : List String) : String :=
  if List.countP (fun l => matchesIds l.data) data = data.length then "id"
  else if List.countP (fun l => !matchesIds l.data && matchesGuid l.data) data
      = data.length then "guid"
  else "slug"

/-! ## Characterization of the classifier's patterns -/

/-- The shape described by the curly-braced UUID alternative: five groups of
    8, 4, 4, 4 and 12 hex digits, dash separated, inside braces. -/
def UuidShape (l : List Char) : Prop :=
  ∃ h1 h2 h3 h4 h5 : List Char,
    l = '{' :: (h1 ++ '-' :: (h2 ++ '-' :: (h3 ++ '-' :: (h4 ++ '-' :: (h5 ++ ['}']))))) ∧
    h1.length = 8 ∧ h2.length = 4 ∧ h3.length = 4 ∧ h4.length = 4 ∧
    h5.length = 12 ∧
    (∀ c ∈ h1 ++ h2 ++ h3 ++ h4 ++ h5, isHexI c = true)

/-- The shape described by the email-like alternative: a possibly empty local
    part, an `@`, and a non-empty domain, both drawn from `[a-z0-9-._]`
    case-insensitively. -/
def EmailShape (l : List Char) : Prop :=
  ∃ lp dom : List Char,
    l = lp ++ '@' :: dom ∧ (∀ c ∈ lp, isEmailChar c = true) ∧
    dom ≠ [] ∧ (∀ c ∈ dom, isEmailChar c = true)

theorem takeHex_eq_some {n : Nat} :
    ∀ {l r : List Char}, takeHex n l = some r ↔
      ∃ h : List Char, l = h ++ r ∧ h.length = n ∧ (∀ c ∈ h, isHexI c = true) := by
  induction n with
  | zero =>
    intro l r
    constructor
    · intro h
      simp only [takeHex, Option.some.injEq] at h
      exact ⟨[], by simpa using h, rfl, by simp⟩
    · rintro ⟨h, hl, hlen, _⟩
      rw [List.length_eq_zero] at hlen
      subst hlen
      simp only [List.nil_append] at hl
      simp [takeHex, hl]
  | succ n ih =>
    intro l r
    constructor
    · intro h
      match l with
      | [] => simp [takeHex] at h
      | c :: l' =>
        rw [takeHex] at h
        by_cases hc : isHexI c
        · rw [if_pos hc] at h
          obtain ⟨h', hl', hlen', hall'⟩ := ih.mp h
          refine ⟨c :: h', by simp [hl'], by simp [hlen'], ?_⟩
          intro d hd
          rcases hd with _ | hd
          · exact hc
          · exact hall' d (by assumption)
        · rw [if_neg hc] at h
          exact absurd h (by simp)
    · rintro ⟨h, hl, hlen, hall⟩
      match h, hlen with
      | c :: h', hlen =>
        subst hl
        have hc : isHexI c = true := hall c (by simp)
        rw [List.cons_append, takeHex, if_pos hc]
        exact ih.mpr ⟨h', rfl, by simpa using hlen, fun d hd => hall d (by simp [hd])⟩

theorem dropDash_eq_some {l r : List Char} :
    dropDash l = some r ↔ l = '-' :: r := by
  cases l with
  | nil => simp [dropDash]
  | cons c l' =>
    by_cases hc : c = '-'
    · subst hc; simp [dropDash]
    · simp [dropDash, hc, Ne.symm hc]

theorem dropDash_cons (X : List Char) : dropDash ('-' :: X) = some X := by
  simp [dropDash]

theorem uuidChain_eq_some {r0 r : List Char} :
    uuidChain r0 = some r ↔
      ∃ g1 g2 g3 g4 g5 : List Char,
        r0 = g1 ++ '-' :: (g2 ++ '-' :: (g3 ++ '-' :: (g4 ++ '-' :: (g5 ++ r)))) ∧
        g1.length = 8 ∧ g2.length = 4 ∧ g3.length = 4 ∧ g4.length = 4 ∧
        g5.length = 12 ∧
        (∀ c ∈ g1 ++ g2 ++ g3 ++ g4 ++ g5, isHexI c = true) := by
  constructor
  · intro h
    simp only [uuidChain, Option.bind_eq_some] at h
    obtain ⟨a8, ⟨a7, ⟨a6, ⟨a5, ⟨a4, ⟨a3, ⟨a2, ⟨a1, hT1, hD1⟩, hT2⟩, hD2⟩, hT3⟩,
      hD3⟩, hT4⟩, hD4⟩, hT5⟩ := h
    obtain ⟨g1, e1, len1, hex1⟩ := takeHex_eq_some.mp hT1
    rw [dropDash_eq_some] at hD1
    obtain ⟨g2, e2, len2, hex2⟩ := takeHex_eq_some.mp hT2
    rw [dropDash_eq_some] at hD2
    obtain ⟨g3, e3, len3, hex3⟩ := takeHex_eq_some.mp hT3
    rw [dropDash_eq_some] at hD3
    obtain ⟨g4, e4, len4, hex4⟩ := takeHex_eq_some.mp hT4
    rw [dropDash_eq_some] at hD4
    obtain ⟨g5, e5, len5, hex5⟩ := takeHex_eq_some.mp hT5
    refine ⟨g1, g2, g3, g4, g5, ?_, len1, len2, len3, len4, len5, ?_⟩
    · subst e1 hD1 e2 hD2 e3 hD3 e4 hD4 e5
      simp
    · intro d hd
      simp only [List.mem_append] at hd
      rcases hd with ((((hd | hd) | hd) | hd) | hd)
      · exact hex1 d hd
      · exact hex2 d hd
      · exact hex3 d hd
      · exact hex4 d hd
      · exact hex5 d hd
  · rintro ⟨g1, g2, g3, g4, g5, hl, len1, len2, len3, len4, len5, hall⟩
    subst hl
    have t1 : takeHex 8 (g1 ++ '-' :: (g2 ++ '-' :: (g3 ++ '-' :: (g4 ++ '-' :: (g5 ++ r)))))
        = some ('-' :: (g2 ++ '-' :: (g3 ++ '-' :: (g4 ++ '-' :: (g5 ++ r))))) :=
      takeHex_eq_some.mpr ⟨g1, rfl, len1, fun d hd => hall d (by simp [hd])⟩
    have t2 : takeHex 4 (g2 ++ '-' :: (g3 ++ '-' :: (g4 ++ '-' :: (g5 ++ r))))
        = some ('-' :: (g3 ++ '-' :: (g4 ++ '-' :: (g5 ++ r)))) :=
      takeHex_eq_some.mpr ⟨g2, rfl, len2, fun d hd => hall d (by simp [hd])⟩
    have t3 : takeHex 4 (g3 ++ '-' :: (g4 ++ '-' :: (g5 ++ r)))
        = some ('-' :: (g4 ++ '-' :: (g5 ++ r))) :=
      takeHex_eq_some.mpr ⟨g3, rfl, len3, fun d hd => hall d (by simp [hd])⟩
    have t4 : takeHex 4 (g4 ++ '-' :: (g5 ++ r))
        = some ('-' :: (g5 ++ r)) :=
      takeHex_eq_some.mpr ⟨g4, rfl, len4, fun d hd => hall d (by simp [hd])⟩
    have t5 : takeHex 12 (g5 ++ r) = some r :=
      takeHex_eq_some.mpr ⟨g5, rfl, len5, fun d hd => hall d (by simp [hd])⟩
    simp only [uuidChain, t1, Option.some_bind, dropDash_cons, t2, t3, t4, t5]

theorem matchesUuid_iff (l : List Char) :
    matchesUuid l = true ↔ UuidShape l := by
  cases l with
  | nil =>
    constructor
    · intro h; simp [matchesUuid] at h
    · rintro ⟨g1, g2, g3, g4, g5, hl, -⟩
      exact absurd hl (by simp)
  | cons c r0 =>
    constructor
    · intro h
      simp only [matchesUuid, Bool.and_eq_true, beq_iff_eq] at h
      obtain ⟨hc, hch⟩ := h
      subst hc
      obtain ⟨g1, g2, g3, g4, g5, hl, len1, len2, len3, len4, len5, hall⟩ :=
        uuidChain_eq_some.mp hch
      exact ⟨g1, g2, g3, g4, g5, by simp [hl], len1, len2, len3, len4, len5,
        fun d hd => hall d hd⟩
    · rintro ⟨g1, g2, g3, g4, g5, hl, len1, len2, len3, len4, len5, hall⟩
      simp only [List.cons.injEq] at hl
      obtain ⟨hc, hr0⟩ := hl
      subst hc
      simp only [matchesUuid, Bool.and_eq_true, beq_iff_eq, beq_self_eq_true,
        true_and]
      exact uuidChain_eq_some.mpr
        ⟨g1, g2, g3, g4, g5, hr0, len1, len2, len3, len4, len5, hall⟩

theorem matchesEmail_iff :
    ∀ l : List Char, matchesEmail l = true ↔ EmailShape l := by
  intro l
  induction l with
  | nil =>
    constructor
    · intro h; simp [matchesEmail] at h
    · rintro ⟨lp, dom, hl, -, -, -⟩
      exact absurd hl (by simp)
  | cons c rest ih =>
    by_cases hc : c = '@'
    · subst hc
      have hm : matchesEmail ('@' :: rest) = (!rest.isEmpty && rest.all isEmailChar) := by
        simp [matchesEmail]
      rw [hm]
      simp only [Bool.and_eq_true, Bool.not_eq_true', List.isEmpty_eq_false,
        List.all_eq_true, ne_eq]
      constructor
      · intro h
        exact ⟨[], rest, rfl, by simp, h.1, h.2⟩
      · rintro ⟨lp, dom, hl, hlp, hdom, hdall⟩
        cases lp with
        | nil =>
          simp only [List.nil_append, List.cons.injEq, true_and] at hl
          subst hl
          exact ⟨hdom, hdall⟩
        | cons c' lp' =>
          simp only [List.cons_append, List.cons.injEq] at hl
          have : isEmailChar c' = true := hlp c' (by simp)
          rw [hl.1.symm] at this
          exact absurd this (by decide)
    · have hm : matchesEmail (c :: rest) = (isEmailChar c && matchesEmail rest) := by
        simp [matchesEmail, hc]
      rw [hm]
      simp only [Bool.and_eq_true]
      constructor
      · intro h
        obtain ⟨lp, dom, hl, hlp, hdom, hdall⟩ := ih.mp h.2
        refine ⟨c :: lp, dom, by simp [hl], ?_, hdom, hdall⟩
        intro d hd
        rcases List.mem_cons.mp hd with hd | hd
        · subst hd; exact h.1
        · exact hlp d hd
      · rintro ⟨lp, dom, hl, hlp, hdom, hdall⟩
        cases lp with
        | nil =>
          simp only [List.nil_append, List.cons.injEq] at hl
          exact absurd hl.1 hc
        | cons c' lp' =>
          simp only [List.cons_append, List.cons.injEq] at hl
          obtain ⟨hcc, hrest⟩ := hl
          subst hcc
          refine ⟨hlp c (by simp), ih.mpr ⟨lp', dom, hrest, ?_, hdom, hdall⟩⟩
          intro d hd
          exact hlp d (by simp [hd])

theorem matchesIds_iff (l : List Char) :
    matchesIds l = true ↔ l ≠ [] ∧ ∀ c ∈ l, ('0' ≤ c ∧ c ≤ '9') := by
  simp only [matchesIds, Bool.and_eq_true, Bool.not_eq_true', List.isEmpty_eq_false,
    List.all_eq_true, ne_eq]
  constructor
  · rintro ⟨h1, h2⟩
    exact ⟨h1, fun c hc => by simpa [isDigitC] using h2 c hc⟩
  · rintro ⟨h1, h2⟩
    exact ⟨h1, fun c hc => by simpa [isDigitC] using h2 c hc⟩

/-- The two alternatives of `RE_GUID`, in shape form. -/
def GuidShape (l : List Char) : Prop :=
  UuidShape l ∨ EmailShape l

theorem matchesGuid_iff (l : List Char) :
    matchesGuid l = true ↔ GuidShape l := by
  simp only [matchesGuid, Bool.or_eq_true, GuidShape, matchesUuid_iff,
    matchesEmail_iff]

/-- A digits-only line matches neither alternative of `RE_GUID`. -/
theorem not_guid_of_ids {l : List Char} (h : matchesIds l = true) :
    matchesGuid l = false := by
  rw [← Bool.not_eq_true, matchesGuid_iff]
  obtain ⟨-, hall⟩ := (matchesIds_iff l).mp h
  rintro (⟨g1, g2, g3, g4, g5, hl, -⟩ | ⟨lp, dom, hl, -⟩)
  · have : '{' ∈ l := by rw [hl]; simp
    have := hall _ this
    revert this
    decide
  · have : '@' ∈ l := by rw [hl]; simp
    have := hall _ this
    revert this
    decide

/-! ## The claim's reading of the guid pattern, with the character class
    restricted to alphanumeric characters, hyphen and dot (no underscore);
    used to compare the classifier with the specified pattern. -/

/-- The claim's email character class: alphanumeric, hyphen, dot only. -/
def claimEmailChar (c : Char) : Bool :=
  ('a' ≤ c && c ≤ 'z') || ('A' ≤ c && c ≤ 'Z') || isDigitC c ||
    c == '-' || c == '.'

/-- The claim's email-like alternative, over `claimEmailChar`. -/
def claimEmailMatch : List Char → Bool
  | [] => false
  | c :: rest =>
    if c = '@' then !rest.isEmpty && rest.all claimEmailChar
    else claimEmailChar c && claimEmailMatch rest

/-- The claim's guid pattern: curly-braced UUID, or email-like id over the
    claim's restricted character class. -/
def claimGuidMatch (l : List Char) : Bool :=
  matchesUuid l || claimEmailMatch l

/-! ## The claim's reading of bulk auto-detection, which exempts empty lines
    from the all-ids condition. -/

/-- Bulk type as the claim words it: `id` when every non-empty line
    classifies as `id`, `guid` when every line classifies as `guid`,
    `slug` otherwise. -/
def claimBulkType (data : List String) : String :=
  if data.all fun l => l.isEmpty || (classifyLine l == "id") then "id"
  else if data.all fun l => classifyLine l == "guid" then "guid"
  else "slug"

/-! ## Escaping utilities (`mysqlEscape`, `csvEscape` from `src/cli.js`) -/

/-- JavaScript `str.replace(/p/g, r)` for a single-character pattern `p`:
    every occurrence of `p` is replaced by `r`, in one left-to-right pass. -/
def rep (p : Char) (r : List Char) : List Char → List Char
  | [] => []
  | c :: rest => (if c = p then r else [c]) ++ rep p r rest

/-- `mysqlEscape` from `src/cli.js`: seven chained global replaces, backslash
    first, each inserting a backslash before the matched character. -/
def mysqlEscape (l : List Char) : List Char :=
  rep '\x1a' ['\\', '\x1a']
    (rep '\x00' ['\\', '\x00']
      (rep '\r' ['\\', '\r']
        (rep '\n' ['\\', '\n']
          (rep '"' ['\\', '"']
            (rep '\'' ['\\', '\'']
              (rep '\\' ['\\', '\\'] l))))))

/-- String-level wrapper for `mysqlEscape`. -/
def mysqlEscapeS (s : String) : String :=
  ⟨mysqlEscape s.data⟩

/-- The characters `mysqlEscape` escapes. -/
def isSpecial (c : Char) : Bool :=
  c = '\\' || c = '\'' || c = '"' || c = '\n' || c = '\r' || c = '\x00' || c = '\x1a'

/-- What `mysqlEscape` does to one character. -/
def escChar (c : Char) : List Char :=
  if isSpecial c then ['\\', c] else [c]

/-- `csvEscape` from `src/cli.js` on an actual string: replace every comma by
    backslash-comma. -/
def csvEscape (s : String) : String :=
  ⟨rep ',' ['\\', ','] s.data⟩

/-- `csvEscape` on a possibly absent value: `(str || "")` stringifies an
    absent value to the empty string. -/
def csvEscapeOpt (v : Option String) : String :=
  csvEscape (v.getD "")

/-! ## `rep` and `mysqlEscape` structure lemmas -/

theorem rep_append (p : Char) (r : List Char) (a b : List Char) :
    rep p r (a ++ b) = rep p r a ++ rep p r b := by
  induction a with
  | nil => simp [rep]
  | cons c a ih => simp [rep, ih]

theorem mysqlEscape_cons (c : Char) (l : List Char) :
    mysqlEscape (c :: l) = mysqlEscape [c] ++ mysqlEscape l := by
  show mysqlEscape ([c] ++ l) = _
  simp only [mysqlEscape, rep_append]

theorem mysqlEscape_single (c : Char) : mysqlEscape [c] = escChar c := by
  by_cases h1 : c = '\\'
  · subst h1; decide
  by_cases h2 : c = '\''
  · subst h2; decide
  by_cases h3 : c = '"'
  · subst h3; decide
  by_cases h4 : c = '\n'
  · subst h4; decide
  by_cases h5 : c = '\r'
  · subst h5; decide
  by_cases h6 : c = '\x00'
  · subst h6; decide
  by_cases h7 : c = '\x1a'
  · subst h7; decide
  have hsp : isSpecial c = false := by
    simp [isSpecial, h1, h2, h3, h4, h5, h6, h7]
  simp [mysqlEscape, rep, escChar, h1, h2, h3, h4, h5, h6, h7, hsp]

theorem mysqlEscape_eq_escChar (c : Char) (l : List Char) :
    mysqlEscape (c :: l) = escChar c ++ mysqlEscape l := by
  rw [mysqlEscape_cons, mysqlEscape_single]

theorem mysqlEscape_nil : mysqlEscape [] = [] := by
  decide

/-! ## A scanner for backslash-escaped quoted literals (for settling the
    SQL-escaping round-trip property). -/

/-- Scan the body of a quoted literal delimited by `q`: a backslash consumes
    the following character, an unescaped `q` closes the literal.  Returns the
    consumed body and the remainder after the closing delimiter, or `none`
    when the input ends before an unescaped `q`. -/
def scanLit (q : Char) : List Char → Option (List Char × List Char)
  | [] => none
  | c :: rest =>
    if c = q then some ([], rest)
    else if c = '\\' then
      match rest with
      | [] => none
      | d :: rest2 => (scanLit q rest2).map fun p => ('\\' :: d :: p.1, p.2)
    else (scanLit q rest).map fun p => (c :: p.1, p.2)

/-- Running count of the backslashes immediately before each position; checks
    that every single or double quote is preceded by an odd number of
    consecutive backslashes. -/
def oddBeforeQuotes : Nat → List Char → Bool
  | _, [] => true
  | k, c :: rest =>
    if c = '\\' then oddBeforeQuotes (k + 1) rest
    else if c = '\'' || c = '"' then (k % 2 == 1) && oddBeforeQuotes 0 rest
    else oddBeforeQuotes 0 rest

theorem scanLit_cons_self (q : Char) (tail : List Char) :
    scanLit q (q :: tail) = some ([], tail) := by
  rw [scanLit.eq_def]
  simp

theorem scanLit_cons_other (q c : Char) (h : c ≠ q) (h2 : c ≠ '\\')
    (rest : List Char) :
    scanLit q (c :: rest) = (scanLit q rest).map fun p => (c :: p.1, p.2) := by
  rw [scanLit.eq_def]
  simp [h, h2]

theorem scanLit_cons_esc (q d : Char) (h : ('\\' : Char) ≠ q)
    (rest2 : List Char) :
    scanLit q ('\\' :: d :: rest2) =
      (scanLit q rest2).map fun p => ('\\' :: d :: p.1, p.2) := by
  rw [scanLit.eq_def]
  simp [h]

theorem scanLit_mysqlEscape (q : Char) (hq : q = '\'' ∨ q = '"') :
    ∀ (s tail : List Char),
      scanLit q (mysqlEscape s ++ q :: tail) = some (mysqlEscape s, tail) := by
  intro s
  induction s with
  | nil =>
    intro tail
    rw [mysqlEscape_nil]
    simp [scanLit_cons_self]
  | cons c s ih =>
    intro tail
    rw [mysqlEscape_eq_escChar]
    have hbq : ('\\' : Char) ≠ q := by rcases hq with h | h <;> subst h <;> decide
    by_cases hsp : isSpecial c
    · have he : escChar c = ['\\', c] := by simp [escChar, hsp]
      rw [he]
      simp [scanLit_cons_esc _ _ hbq, ih tail]
    · have he : escChar c = [c] := by simp [escChar, hsp]
      have hcq : c ≠ q := by
        intro h
        subst h
        rcases hq with h | h <;> subst h <;> simp [isSpecial] at hsp
      have hcb : c ≠ '\\' := by
        intro h
        subst h
        simp [isSpecial] at hsp
      rw [he]
      simp [scanLit_cons_other _ _ hcq hcb, ih tail]

theorem oddBeforeQuotes_mysqlEscape :
    ∀ (s : List Char) (k : Nat), k % 2 = 0 →
      oddBeforeQuotes k (mysqlEscape s) = true := by
  intro s
  induction s with
  | nil => intro k _; rw [mysqlEscape_nil]; simp [oddBeforeQuotes]
  | cons c s ih =>
    intro k hk
    rw [mysqlEscape_eq_escChar]
    by_cases hsp : isSpecial c
    · have he : escChar c = ['\\', c] := by simp [escChar, hsp]
      rw [he]
      by_cases hb : c = '\\'
      · subst hb
        simp only [List.cons_append, oddBeforeQuotes, if_pos rfl]
        exact ih (k + 2) (by omega)
      · by_cases hqu : c = '\'' ∨ c = '"'
        · have hq1 : (k + 1) % 2 = 1 := by omega
          simp only [List.cons_append, oddBeforeQuotes, if_pos rfl]
          rcases hqu with h | h <;> subst h <;>
            simp [oddBeforeQuotes, hq1, ih 0 rfl]
        · push_neg at hqu
          simp only [List.cons_append, oddBeforeQuotes, if_pos rfl]
          simp [oddBeforeQuotes, hb, hqu.1, hqu.2, ih 0 rfl]
    · have he : escChar c = [c] := by simp [escChar, hsp]
      have hcb : c ≠ '\\' := by intro h; subst h; simp [isSpecial] at hsp
      have hcq : c ≠ '\'' := by intro h; subst h; simp [isSpecial] at hsp
      have hcd : c ≠ '"' := by intro h; subst h; simp [isSpecial] at hsp
      rw [he]
      simp [oddBeforeQuotes, hcb, hcq, hcd, ih 0 rfl]

/-! ## String-level helpers shared by the query builder and the formatters -/

/-- JavaScript `Array.prototype.join(sep)` for an array of strings. -/
def joinWith (sep : String) : List String → String
  | [] => ""
  | [x] => x
  | x :: xs => x ++ sep ++ joinWith sep xs

theorem string_data_append (a b : String) : (a ++ b).data = a.data ++ b.data :=
  rfl

theorem string_nil_append (s : String) : "" ++ s = s :=
  rfl

/-! ## The partition command's section rendering (`AMOID.partition` in
    `src/cli.js`); the bucket lists `ids`, `guids`, `other` are the result of
    the external `partitionIds` and are taken as inputs here. -/

/-- `bold` from `src/cli.js`. -/
def bold (text : String) : String :=
  "\x1b[1m" ++ text ++ "\x1b[0m"

/-- The `sections` array built by `AMOID.partition`: one entry per non-empty,
    not-filtered-out bucket, prefixed by a bold header plus newline only when
    no output filter was given. -/
def partitionSections (output : Option (List String))
    (ids guids other : List String) : List String :=
  (if ids ≠ [] ∧ (output = none ∨ ("id") ∈ output.getD []) then
    [(match output with | some _ => "" | none => bold ("IDs:") ++ "\n") ++
      joinWith "\n" ids] else []) ++
  (if guids ≠ [] ∧ (output = none ∨ ("guid") ∈ output.getD []) then
    [(match output with | some _ => "" | none => bold ("GUIDs:") ++ "\n") ++
      joinWith "\n" guids] else []) ++
  (if other ≠ [] ∧ (output = none ∨ ("slug") ∈ output.getD []) then
    [(match output with | some _ => "" | none => bold ("Slugs:") ++ "\n") ++
      joinWith "\n" other] else [])

/-- The final `console.log` argument of `AMOID.partition`:
    `sections.join(argv.output ? "\n" : "\n\n")`. -/
def partitionOutput (output : Option (List String))
    (ids guids other : List String) : String :=
  joinWith (match output with | some _ => "\n" | none => "\n\n")
    (partitionSections output ids guids other)

/-! ## Facts about `classifyLine` and `detectInput` -/

theorem classifyLine_eq_id (l : String) :
    classifyLine l = "id" ↔ matchesIds l.data = true := by
  unfold classifyLine
  split_ifs with h1 h2
  · simp [h1]
  · constructor
    · intro h; exact absurd h (by decide)
    · intro h; exact absurd h h1
  · constructor
    · intro h; exact absurd h (by decide)
    · intro h; exact absurd h h1

theorem classifyLine_eq_guid (l : String) :
    classifyLine l = "guid" ↔ (!matchesIds l.data && matchesGuid l.data) = true := by
  unfold classifyLine
  split_ifs with h1 h2
  · constructor
    · intro h; exact absurd h (by decide)
    · intro h
      rw [Bool.and_eq_true, Bool.not_eq_true'] at h
      rw [h1] at h
      exact absurd h.1 (by decide)
  · simp [h1, h2]
  · constructor
    · intro h; exact absurd h (by decide)
    · intro h
      rw [Bool.and_eq_true] at h
      exact absurd h.2 h2

theorem classifyLine_eq_slug (l : String) :
    classifyLine l = "slug" ↔
      (matchesIds l.data = false ∧ matchesGuid l.data = false) := by
  unfold classifyLine
  split_ifs with h1 h2
  · constructor
    · intro h; exact absurd h (by decide)
    · rintro ⟨ha, -⟩
      rw [h1] at ha
      exact absurd ha (by decide)
  · constructor
    · intro h; exact absurd h (by decide)
    · rintro ⟨-, hg⟩
      rw [h2] at hg
      exact absurd hg (by decide)
  · constructor
    · intro _
      exact ⟨by simpa using h1, by simpa using h2⟩
    · intro _
      rfl

/-- `detectInput` in terms of the per-line classifier. -/
theorem detectInput_characterization (data : List String) :
    (detectInput data = "id" ↔ ∀ l ∈ data, classifyLine l = "id") ∧
    (detectInput data = "guid" ↔
      (data ≠ [] ∧ ∀ l ∈ data, classifyLine l = "guid")) ∧
    (detectInput data = "slug" ↔
      (¬(∀ l ∈ data, classifyLine l = "id") ∧
       ¬(data ≠ [] ∧ ∀ l ∈ data, classifyLine l = "guid"))) := by
  have hall_id : (List.countP (fun l => matchesIds l.data) data = data.length) ↔
      ∀ l ∈ data, classifyLine l = "id" := by
    rw [List.countP_eq_length]
    constructor
    · intro h l hl; exact (classifyLine_eq_id l).mpr (h l hl)
    · intro h l hl; exact (classifyLine_eq_id l).mp (h l hl)
  have hall_guid : (List.countP
        (fun l => !matchesIds l.data && matchesGuid l.data) data = data.length) ↔
      ∀ l ∈ data, classifyLine l = "guid" := by
    rw [List.countP_eq_length]
    constructor
    · intro h l hl; exact (classifyLine_eq_guid l).mpr (h l hl)
    · intro h l hl; exact (classifyLine_eq_guid l).mp (h l hl)
  have hguid_excl : (∀ l ∈ data, classifyLine l = "guid") → data ≠ [] →
      ¬(∀ l ∈ data, classifyLine l = "id") := by
    intro hg hne hid
    obtain ⟨l0, hl0⟩ := List.exists_mem_of_ne_nil data hne
    have h1 := hg l0 hl0
    have h2 := hid l0 hl0
    rw [h2] at h1
    exact absurd h1 (by decide)
  unfold detectInput
  split_ifs with h1 h2
  · refine ⟨iff_of_true rfl (hall_id.mp h1), ?_, ?_⟩
    · constructor
      · intro h; exact absurd h (by decide)
      · rintro ⟨hne, hg⟩
        exact absurd (hall_id.mp h1) (hguid_excl hg hne)
    · constructor
      · intro h; exact absurd h (by decide)
      · rintro ⟨hid, -⟩
        exact absurd (hall_id.mp h1) hid
  · have hne : data ≠ [] := by
      rintro rfl
      exact h1 (by simp)
    refine ⟨?_, iff_of_true rfl ⟨hne, hall_guid.mp h2⟩, ?_⟩
    · constructor
      · intro h; exact absurd h (by decide)
      · intro h
        exact absurd (hall_id.mpr h) h1
    · constructor
      · intro h; exact absurd h (by decide)
      · rintro ⟨-, hng⟩
        exact absurd ⟨hne, hall_guid.mp h2⟩ hng
  · refine ⟨?_, ?_, ?_⟩
    · constructor
      · intro h; exact absurd h (by decide)
      · intro h
        exact absurd (hall_id.mpr h) h1
    · constructor
      · intro h; exact absurd h (by decide)
      · rintro ⟨hne, hg⟩
        exact absurd (hall_guid.mpr hg) h2
    · exact iff_of_true rfl ⟨fun h => absurd (hall_id.mpr h) h1,
        fun h => absurd (hall_guid.mpr h.2) h2⟩

/-! ## Claim C1 -/

/-- C1 (counterexample): the classifier as implemented returns `guid` for the
    line `_@a`, although the underscore is outside the claim's stated
    character class (alphanumeric, hyphen, dot), under which the line matches
    neither guid alternative and would have to classify as `slug`. -/
theorem C1_classifier_counterexample :
    classifyLine ("_@a") = "guid" ∧ claimGuidMatch (("_@a" : String)).data = false := by
  decide

/-- C1 (amended): for every input line, the classifier returns `id` exactly
    when the whole line is one or more decimal digits; returns `guid` exactly
    when the line is a curly-braced 8-4-4-4-12 hex UUID or an email-like id
    whose local part and domain consist of alphanumeric characters, hyphen,
    dot or underscore, case-insensitively, with a non-empty domain; and
    returns `slug` for every other string, the empty string included. -/
theorem C1_classifier_amended :
    ∀ s : String,
      (classifyLine s = "id" ↔ (s.data ≠ [] ∧ ∀ c ∈ s.data, '0' ≤ c ∧ c ≤ '9')) ∧
      (classifyLine s = "guid" ↔ GuidShape s.data) ∧
      (classifyLine s = "slug" ↔
        (¬(s.data ≠ [] ∧ ∀ c ∈ s.data, '0' ≤ c ∧ c ≤ '9') ∧ ¬GuidShape s.data)) ∧
      classifyLine "" = "slug" := by
  intro s
  have hid : classifyLine s = "id" ↔ (s.data ≠ [] ∧ ∀ c ∈ s.data, '0' ≤ c ∧ c ≤ '9') := by
    rw [classifyLine_eq_id, matchesIds_iff]
  have hguid : classifyLine s = "guid" ↔ GuidShape s.data := by
    rw [classifyLine_eq_guid]
    constructor
    · intro h
      rw [Bool.and_eq_true] at h
      exact (matchesGuid_iff s.data).mp h.2
    · intro h
      have hg : matchesGuid s.data = true := (matchesGuid_iff s.data).mpr h
      have hni : matchesIds s.data = false := by
        cases hmi : matchesIds s.data
        · rfl
        · rw [not_guid_of_ids hmi] at hg
          exact absurd hg (by decide)
      simp [hg, hni]
  have hslug : classifyLine s = "slug" ↔
      (¬(s.data ≠ [] ∧ ∀ c ∈ s.data, '0' ≤ c ∧ c ≤ '9') ∧ ¬GuidShape s.data) := by
    rw [classifyLine_eq_slug]
    rw [← matchesIds_iff, ← matchesGuid_iff]
    simp
  exact ⟨hid, hguid, hslug, by decide⟩

/-! ## Claim C2 -/

/-- C2 (counterexample): on the input `["1", ""]` every non-empty line
    classifies as `id`, so the claim's rule yields `id`, but `detectInput`
    counts the empty line against the total and returns `slug`. -/
theorem C2_autodetect_counterexample :
    detectInput [("1" : String), ""] = "slug" ∧
      claimBulkType [("1" : String), ""] = "id" := by
  decide

/-- C2 (amended): bulk auto-detection returns `id` exactly when every line,
    empty lines included, classifies as `id` (in particular for the empty
    input); returns `guid` exactly when the input is non-empty and every line
    classifies as `guid`; and returns `slug` otherwise. -/
theorem C2_autodetect_amended :
    ∀ data : List String,
      (detectInput data = "id" ↔ ∀ l ∈ data, classifyLine l = "id") ∧
      (detectInput data = "guid" ↔
        (data ≠ [] ∧ ∀ l ∈ data, classifyLine l = "guid")) ∧
      (detectInput data = "slug" ↔
        (¬(∀ l ∈ data, classifyLine l = "id") ∧
         ¬(data ≠ [] ∧ ∀ l ∈ data, classifyLine l = "guid"))) :=
  detectInput_characterization

/-! ## Claim C3 -/

/-- C3: escaping a string with `mysqlEscape` and embedding the result between
    single- or double-quote delimiters never terminates the literal early: a
    scanner honouring backslash escapes consumes the whole escaped body and
    stops exactly at the closing delimiter, and every quote character in the
    escaped output is preceded by an odd number of consecutive backslashes. -/
theorem C3_sql_escaping_roundtrip :
    ∀ (s : String) (tail : List Char),
      scanLit '\'' (mysqlEscape s.data ++ '\'' :: tail) =
        some (mysqlEscape s.data, tail) ∧
      scanLit '"' (mysqlEscape s.data ++ '"' :: tail) =
        some (mysqlEscape s.data, tail) ∧
      oddBeforeQuotes 0 (mysqlEscape s.data) = true :=
  fun s tail =>
    ⟨scanLit_mysqlEscape '\'' (Or.inl rfl) s.data tail,
     scanLit_mysqlEscape '"' (Or.inr rfl) s.data tail,
     oddBeforeQuotes_mysqlEscape s.data 0 rfl⟩

/-! ## Claim C4 -/

/-- The relation described by the CSV-escaping contract: the output is the
    input with each literal comma replaced by backslash-comma and every other
    character kept unchanged. -/
inductive CommaEsc : List Char → List Char → Prop
  | nil : CommaEsc [] []
  | comma {s t : List Char} : CommaEsc s t → CommaEsc (',' :: s) ('\\' :: ',' :: t)
  | keep {c : Char} {s t : List Char} :
      c ≠ ',' → CommaEsc s t → CommaEsc (c :: s) (c :: t)

theorem commaEsc_rep : ∀ l : List Char, CommaEsc l (rep ',' ['\\', ','] l) := by
  intro l
  induction l with
  | nil => exact CommaEsc.nil
  | cons c l ih =>
    by_cases hc : c = ','
    · subst hc
      simpa [rep] using CommaEsc.comma ih
    · simpa [rep, hc] using CommaEsc.keep hc ih

/-- C4: `csvEscape` rewrites each literal comma of the (stringified) input to
    backslash-comma and alters no other character; an absent value is
    stringified to the empty string and escapes to the empty string. -/
theorem C4_csv_escaping :
    (∀ s : String, CommaEsc s.data (csvEscape s).data) ∧
    (∀ v : Option String, CommaEsc ((v.getD "")).data (csvEscapeOpt v).data) ∧
    csvEscapeOpt none = "" :=
  ⟨fun s => commaEsc_rep s.data,
   fun v => commaEsc_rep ((v.getD "")).data,
   rfl⟩

/-! ## Claim C5 -/

/-- C5 (counterexample): for the filter `["id", "guid"]` with one id `1` and
    one guid `a@b`, the printed partition output is `1\na@b` — the two
    sections are separated by a single newline, not by a blank line (which
    would read `1\n\na@b` as the claim states). -/
theorem C5_partition_counterexample :
    partitionOutput (some [("id"), ("guid")]) [("1")] [("a@b")] [] = "1\na@b" ∧
    partitionOutput (some [("id"), ("guid")]) [("1")] [("a@b")] [] ≠ "1\n\na@b" := by
  constructor
  · rfl
  · decide

/-- C5 (amended): whenever an output filter list is given, the partition
    command prints no section headers, and the included non-empty sections —
    each just its items joined by newlines — follow the fixed order id, guid,
    slug and are separated by a single newline (not a blank line). -/
theorem C5_partition_amended :
    ∀ (flt ids guids other : List String),
      partitionOutput (some flt) ids guids other =
        joinWith "\n"
          ((if ids ≠ [] ∧ ("id") ∈ flt then [joinWith "\n" ids] else []) ++
           (if guids ≠ [] ∧ ("guid") ∈ flt then [joinWith "\n" guids] else []) ++
           (if other ≠ [] ∧ ("slug") ∈ flt then [joinWith "\n" other] else [])) := by
  intro flt ids guids other
  unfold partitionOutput partitionSections
  simp only [Option.getD_some, string_nil_append]
  have hid : (ids ≠ [] ∧ (some flt = none ∨ ("id") ∈ flt)) ↔
      (ids ≠ [] ∧ ("id") ∈ flt) := by simp
  have hguid : (guids ≠ [] ∧ (some flt = none ∨ ("guid") ∈ flt)) ↔
      (guids ≠ [] ∧ ("guid") ∈ flt) := by simp
  have hslug : (other ≠ [] ∧ (some flt = none ∨ ("slug") ∈ flt)) ↔
      (other ≠ [] ∧ ("slug") ∈ flt) := by simp
  rw [if_congr hid rfl rfl, if_congr hguid rfl rfl, if_congr hslug rfl rfl]

/-! ## The convert flow's query builder (`AMOID.convert` in `src/cli.js`).
    The template literals are transcribed with their exact whitespace; the
    interpolation holes become string concatenation. -/

/-- `columnmap[col] || "a." + col`. -/
def columnMap (col : String) : String :=
  if col = "id" then "a.id"
  else if col = "guid" then "a.guid"
  else if col = "slug" then "a.slug"
  else if col = "user_id" then "au.user_id"
  else "a." ++ col

/-- The optional versions/files join inserted when `argv.wx` is set. -/
def wxJoinFragment : String :=
  "\n          LEFT JOIN versions v ON (v.addon_id = a.id)\n          LEFT JOIN files f ON (f.version_id = v.id)\n          "

/-- The `argv.user` branch query (expand to all add-ons of the owning
    users). -/
def userQuery (input : String) (cols : List String) (wx : Bool)
    (escapedIds : List String) : String :=
  "\n        SELECT " ++ joinWith (",") (cols.map columnMap) ++
  ",au.user_id\n        FROM addons_users au\n        LEFT JOIN addons a ON (a.id = au.addon_id)\n        " ++
  (if wx then wxJoinFragment else "") ++
  "\n        WHERE\n          au.user_id IN (\n            SELECT au.user_id\n            FROM addons a\n            RIGHT JOIN addons_users au ON (a.id = au.addon_id)\n            WHERE a." ++
  input ++ " IN (" ++ joinWith (",") escapedIds ++
  ")\n            GROUP BY au.user_id\n          )\n          AND a.guid NOT LIKE 'guid-reused-by-pk-%'\n          " ++
  (if wx then "AND f.is_webextension = 1" else "") ++
  "\n          GROUP BY a.id\n      "

/-- The `columns.length == 1 && columns[0] == "user_id"` branch query. -/
def userIdQuery (input : String) (escapedIds : List String) : String :=
  "\n        SELECT au.user_id\n        FROM addons_users au\n        LEFT JOIN addons a ON (a.id = au.addon_id)\n        WHERE a." ++
  input ++ " IN (" ++ joinWith (",") escapedIds ++ ")\n      "

/-- The plain lookup branch query. -/
def plainQuery (input : String) (cols : List String) (wx : Bool)
    (escapedIds : List String) : String :=
  "\n        SELECT " ++ joinWith (",") (cols.map columnMap) ++
  "\n        FROM addons a\n        " ++
  (if wx then wxJoinFragment else "") ++
  "\n        LEFT JOIN addons_users au ON (au.addon_id = a.id AND au.position = 0)\n        WHERE\n          a." ++
  input ++ " IN (" ++ joinWith (",") escapedIds ++
  ")\n          AND a.guid NOT LIKE 'guid-reused-by-pk-%'\n          " ++
  (if wx then "AND f.is_webextension = 1" else "") ++
  "\n        GROUP BY a.id\n      "

/-- `columns.length == 1 && columns[0] == "user_id"`. -/
def userIdOnly : List String → Bool
  | [c] => c == "user_id"
  | _ => false

/-- Which of the three queries `AMOID.convert` issues. -/
def convertQuery (input : String) (cols : List String) (user wx : Bool)
    (escapedIds : List String) : String :=
  if user then userQuery input cols wx escapedIds
  else if userIdOnly cols then userIdQuery input escapedIds
  else plainQuery input cols wx escapedIds

/-- `data.map(line => '"' + mysqlEscape(line) + '"')`. -/
def mkEscapedIds (data : List String) : List String :=
  data.map fun line => ("\"") ++ mysqlEscapeS line ++ "\""

/-- The columns used for display after the user branch ran: `user_id` is
    pushed only when more than one column was already requested. -/
def userDisplayColumns (cols : List String) : List String :=
  if 1 < cols.length then cols ++ [("user_id")] else cols

/-- The user branch as a whole: the issued query (built from the requested
    columns) together with the display column list extended afterwards. -/
def convertUserFlow (input : String) (cols : List String) (wx : Bool)
    (escapedIds : List String) : String × List String :=
  (userQuery input cols wx escapedIds, userDisplayColumns cols)

/-- Everything of `userQuery` before the first interpolation hole that
    depends on the filter: the SELECT clause over the requested columns and
    the first two FROM/JOIN lines. -/
def userSelectFragment (cols : List String) : String :=
  "\n        SELECT " ++ joinWith (",") (cols.map columnMap) ++
  ",au.user_id\n        FROM addons_users au\n        LEFT JOIN addons a ON (a.id = au.addon_id)\n        "

/-- The rest of `userQuery`: the filter (WHERE/JOIN) part, which depends on
    the input type, the WebExtension flag and the escaped identifiers, but
    not on the output columns. -/
def userFilterFragment (input : String) (wx : Bool)
    (escapedIds : List String) : String :=
  (if wx then wxJoinFragment else "") ++
  "\n        WHERE\n          au.user_id IN (\n            SELECT au.user_id\n            FROM addons a\n            RIGHT JOIN addons_users au ON (a.id = au.addon_id)\n            WHERE a." ++
  input ++ " IN (" ++ joinWith (",") escapedIds ++
  ")\n            GROUP BY au.user_id\n          )\n          AND a.guid NOT LIKE 'guid-reused-by-pk-%'\n          " ++
  (if wx then "AND f.is_webextension = 1" else "") ++
  "\n          GROUP BY a.id\n      "

/-! ## The output formatter of the convert flow -/

/-- `row[column]` on a result row modelled as an association list. -/
def rowLookup (col : String) (row : List (String × String)) : Option String :=
  (row.find? fun p => p.1 == col).map fun p => p.2

/-- One line of `resdata`: the requested columns of one row, each passed
    through `escape` (CSV escaping when more than one column was requested,
    the identity otherwise, with an absent value rendering as the empty
    string), joined with commas. -/
def convertRowLine (cols : List String) (row : List (String × String)) : String :=
  joinWith (",")
    (cols.map fun c =>
      if 1 < cols.length then csvEscapeOpt (rowLookup c row)
      else (rowLookup c row).getD "")

/-- The sequence of `console.log` calls of the convert flow's output section:
    the comma-joined header when more than one column was requested and at
    least one row exists, then the newline-joined data block. -/
def convertEmit (cols : List String)
    (rows : List (List (String × String))) : List String :=
  (if 1 < cols.length ∧ 0 < (rows.map (convertRowLine cols)).length then
    [joinWith (",") cols] else []) ++
  [joinWith "\n" (rows.map (convertRowLine cols))]

/-! ## The convert flow's input preparation (`AMOID.convert`, before the
    query is issued). -/

/-- The input type after the `auto` resolution step, computed from the raw
    line list, empty lines included. -/
def convertInputType (raw : List String) (inputArg : String) : String :=
  if inputArg = "auto" then detectInput raw else inputArg

/-- `data.filter(Boolean)`: for strings, `Boolean(s)` is false exactly for
    the empty string. -/
def convertFilteredData (raw : List String) : List String :=
  raw.filter fun s => s != ""

/-- The escaped id list handed to the SQL `IN (...)`, built from the
    filtered data. -/
def convertEscapedIds (raw : List String) : List String :=
  mkEscapedIds (convertFilteredData raw)

/-- `resdata.length < data.length`, the condition for the
    "entries were not found" warning, with `data` the filtered list. -/
def convertWarns (raw : List String) (resRows : Nat) : Bool :=
  decide (resRows < (convertFilteredData raw).length)

/-! ## Substring occurrence counting, for locating the guid-reuse exclusion
    condition inside generated queries. -/

/-- `leadsWith p s`: `p` is an initial segment of `s`. -/
def leadsWith : List Char → List Char → Bool
  | [], _ => true
  | _ :: _, [] => false
  | a :: as, b :: bs => a == b && leadsWith as bs

/-- Number of positions of `s` at which the pattern `p` starts. -/
def occ (pat : List Char) : List Char → Nat
  | [] => if pat.isEmpty then 1 else 0
  | c :: rest => (if leadsWith pat (c :: rest) then 1 else 0) + occ pat rest

theorem leadsWith_iff :
    ∀ (p s : List Char), leadsWith p s = true ↔ ∃ t, s = p ++ t := by
  intro p
  induction p with
  | nil =>
    intro s
    simp [leadsWith]
  | cons a p ih =>
    intro s
    cases s with
    | nil =>
      constructor
      · intro h; exact absurd h (by simp [leadsWith])
      · rintro ⟨t, ht⟩; exact absurd ht (by simp)
    | cons b bs =>
      simp only [leadsWith, Bool.and_eq_true, beq_iff_eq, ih bs]
      constructor
      · rintro ⟨rfl, t, rfl⟩
        exact ⟨t, rfl⟩
      · rintro ⟨t, ht⟩
        simp only [List.cons_append, List.cons.injEq] at ht
        exact ⟨ht.1.symm, t, ht.2⟩

theorem leadsWith_append_cons {p : List Char} (c : Char) (hc : c ∉ p) :
    ∀ (l b : List Char), leadsWith p (l ++ c :: b) = leadsWith p l := by
  induction p with
  | nil => intro l b; rfl
  | cons a p ih =>
    intro l b
    cases l with
    | nil =>
      have hac : (a == c) = false := by
        rw [beq_eq_false_iff_ne]
        intro h
        exact hc (by simp [← h])
      simp [leadsWith, hac]
    | cons x l' =>
      have hcp : c ∉ p := fun h => hc (List.mem_cons_of_mem a h)
      show leadsWith (a :: p) (x :: (l' ++ c :: b)) = leadsWith (a :: p) (x :: l')
      show (a == x && leadsWith p (l' ++ c :: b)) = (a == x && leadsWith p l')
      rw [ih hcp l' b]

theorem occ_nil_eq (p : List Char) : occ p [] = if p.isEmpty then 1 else 0 :=
  rfl

theorem occ_cons_eq (p : List Char) (c : Char) (rest : List Char) :
    occ p (c :: rest) = (if leadsWith p (c :: rest) then 1 else 0) + occ p rest :=
  rfl

theorem occ_nil (p : List Char) (hp : p ≠ []) : occ p [] = 0 := by
  rw [occ_nil_eq]
  simp [hp]

theorem occ_append_cons {p : List Char} (hp : p ≠ []) {c : Char} (hc : c ∉ p) :
    ∀ (a b : List Char), occ p (a ++ c :: b) = occ p a + occ p b := by
  intro a
  induction a with
  | nil =>
    intro b
    have h1 : leadsWith p (c :: b) = false := by
      have h2 := leadsWith_append_cons c hc [] b
      simp only [List.nil_append] at h2
      rw [h2]
      cases p with
      | nil => exact absurd rfl hp
      | cons x xs => rfl
    rw [List.nil_append, occ_cons_eq, h1, occ_nil p hp]
    simp
  | cons x a' ih =>
    intro b
    have h1 : leadsWith p (x :: (a' ++ c :: b)) = leadsWith p (x :: a') := by
      have h2 := leadsWith_append_cons c hc (x :: a') b
      simpa using h2
    calc occ p ((x :: a') ++ c :: b)
        = occ p (x :: (a' ++ c :: b)) := by rw [List.cons_append]
      _ = (if leadsWith p (x :: (a' ++ c :: b)) then 1 else 0) + occ p (a' ++ c :: b) :=
          occ_cons_eq ..
      _ = (if leadsWith p (x :: a') then 1 else 0) + (occ p a' + occ p b) := by
          rw [h1, ih b]
      _ = occ p (x :: a') + occ p b := by rw [occ_cons_eq]; omega

theorem occ_cons_notmem {p : List Char} (hp : p ≠ []) {c : Char} (hc : c ∉ p)
    (b : List Char) : occ p (c :: b) = occ p b := by
  have := occ_append_cons hp hc [] b
  simpa [occ_nil p hp] using this

theorem occ_pos_split {p : List Char} :
    ∀ {s : List Char}, occ p s ≠ 0 → ∃ u v, s = u ++ p ++ v := by
  intro s
  induction s with
  | nil =>
    intro h
    by_cases hp : p.isEmpty
    · rw [List.isEmpty_iff] at hp
      exact ⟨[], [], by simp [hp]⟩
    · rw [occ, if_neg hp] at h
      exact absurd rfl h
  | cons c rest ih =>
    intro h
    rw [occ] at h
    by_cases hl : leadsWith p (c :: rest)
    · obtain ⟨t, ht⟩ := (leadsWith_iff p (c :: rest)).mp hl
      exact ⟨[], t, by simp [ht]⟩
    · rw [if_neg hl] at h
      simp only [Nat.zero_add] at h
      obtain ⟨u, v, huv⟩ := ih h
      exact ⟨c :: u, v, by simp [huv]⟩

/-- The guid-reuse exclusion condition named by the spec. -/
def exclPat : List Char :=
  (("NOT LIKE 'guid-reused-by-pk-%'") : String).data

/-- The single quote is never preceded by anything but a backslash in
    `mysqlEscape` output. -/
theorem mysqlEscape_quote_split :
    ∀ (s u v : List Char), mysqlEscape s = u ++ '\'' :: v →
      ∃ w, u = w ++ ['\\'] := by
  intro s
  induction s with
  | nil =>
    intro u v h
    rw [mysqlEscape_nil] at h
    exact absurd h.symm (by simp)
  | cons c s ih =>
    intro u v h
    rw [mysqlEscape_eq_escChar] at h
    by_cases hsp : isSpecial c
    · rw [show escChar c = ['\\', c] from by simp [escChar, hsp]] at h
      cases u with
      | nil =>
        simp only [List.nil_append, List.cons_append, List.cons.injEq] at h
        exact absurd h.1 (by decide)
      | cons x u' =>
        cases u' with
        | nil =>
          simp only [List.cons_append, List.nil_append, List.cons.injEq] at h
          obtain ⟨hx, -, -⟩ := h
          subst hx
          exact ⟨[], rfl⟩
        | cons y u'' =>
          simp only [List.cons_append, List.cons.injEq] at h
          obtain ⟨hx, hy, hrest⟩ := h
          subst hx
          subst hy
          obtain ⟨w, hw⟩ := ih u'' v hrest
          exact ⟨'\\' :: c :: w, by simp [hw]⟩
    · rw [show escChar c = [c] from by simp [escChar, hsp]] at h
      have hcq : c ≠ '\'' := by
        intro hq
        rw [hq] at hsp
        exact hsp (by decide)
      cases u with
      | nil =>
        simp only [List.nil_append, List.cons_append, List.cons.injEq] at h
        exact absurd h.1 hcq
      | cons x u' =>
        simp only [List.cons_append, List.cons.injEq] at h
        obtain ⟨w, hw⟩ := ih u' v h.2
        exact ⟨x :: w, by simp [h.1, hw]⟩

/-- The escaped form of any input string never contains the exclusion
    condition. -/
theorem occ_exclPat_mysqlEscape (s : List Char) :
    occ exclPat (mysqlEscape s) = 0 := by
  by_contra h
  obtain ⟨u, v, huv⟩ := occ_pos_split h
  have hsplit : exclPat =
      (("NOT LIKE ") : String).data ++ '\'' :: (("guid-reused-by-pk-%'") : String).data := by
    decide
  rw [hsplit] at huv
  have huv' : mysqlEscape s =
      (u ++ (("NOT LIKE ") : String).data) ++
        '\'' :: ((("guid-reused-by-pk-%'") : String).data ++ v) := by
    rw [huv]
    simp
  obtain ⟨w, hw⟩ := mysqlEscape_quote_split s _ _ huv'
  have h1 : u ++ (("NOT LIKE ") : String).data =
      (u ++ (("NOT LIKE") : String).data) ++ [' '] := by
    simp
  rw [h1] at hw
  have h2 : some ' ' = some '\\' := by
    calc some ' ' = ((u ++ (("NOT LIKE") : String).data) ++ [' ']).getLast? := by
          rw [List.getLast?_concat]
      _ = (w ++ ['\\']).getLast? := by rw [hw]
      _ = some '\\' := by rw [List.getLast?_concat]
  have h3 : ' ' = '\\' := Option.some.inj h2
  exact absurd h3 (by decide)

/-! ## Decomposition of the generated queries around the IN list -/

theorem string_eq_of_data {a b : String} (h : a.data = b.data) : a = b := by
  cases a
  cases b
  exact congrArg String.mk h

theorem string_append_assoc (a b c : String) : (a ++ b) ++ c = a ++ (b ++ c) :=
  string_eq_of_data (List.append_assoc a.data b.data c.data)

/-- `mysqlEscape` maps non-empty input to non-empty output. -/
theorem mysqlEscape_ne_nil : ∀ l : List Char, l ≠ [] → mysqlEscape l ≠ [] := by
  intro l hl
  cases l with
  | nil => exact absurd rfl hl
  | cons c s =>
    rw [mysqlEscape_eq_escChar]
    by_cases hsp : isSpecial c
    · rw [show escChar c = ['\\', c] from by simp [escChar, hsp]]
      simp
    · rw [show escChar c = [c] from by simp [escChar, hsp]]
      simp

/-- The IN list built from escaped identifiers contributes no occurrence of
    the exclusion condition: every single quote inside it is preceded by a
    backslash, and the pattern cannot straddle the double-quote wrappers. -/
theorem occ_exclPat_inlist :
    ∀ (raw : List String) (rest : List Char),
      occ exclPat ((joinWith (",") (mkEscapedIds raw)).data ++ rest) =
        occ exclPat rest := by
  have hne : exclPat ≠ [] := by decide
  have hq : ('"' : Char) ∉ exclPat := by decide
  have hcm : (',' : Char) ∉ exclPat := by decide
  intro raw
  induction raw with
  | nil => intro rest; rfl
  | cons r rs ih =>
    intro rest
    cases rs with
    | nil =>
      show occ exclPat ('"' :: ((mysqlEscape r.data ++ ['"']) ++ rest)) =
        occ exclPat rest
      rw [occ_cons_notmem hne hq, List.append_assoc]
      show occ exclPat (mysqlEscape r.data ++ '"' :: rest) = occ exclPat rest
      rw [occ_append_cons hne hq, occ_exclPat_mysqlEscape]
      omega
    | cons r2 rs' =>
      show occ exclPat
          ('"' :: ((((mysqlEscape r.data ++ ['"']) ++ [',']) ++
            (joinWith (",") (mkEscapedIds (r2 :: rs'))).data) ++ rest)) =
        occ exclPat rest
      rw [occ_cons_notmem hne hq, List.append_assoc, List.append_assoc,
        List.append_assoc]
      show occ exclPat
          (mysqlEscape r.data ++ '"' :: ',' ::
            ((joinWith (",") (mkEscapedIds (r2 :: rs'))).data ++ rest)) =
        occ exclPat rest
      rw [occ_append_cons hne hq, occ_exclPat_mysqlEscape,
        occ_cons_notmem hne hcm, ih rest]
      omega

set_option maxRecDepth 20000

/-- The text of the plain-lookup query for input type `guid` and output
    column `id`, before the IN list. -/
def c9Head : List Char :=
  (("\n        SELECT a.id\n        FROM addons a\n        \n        LEFT JOIN addons_users au ON (au.addon_id = a.id AND au.position = 0)\n        WHERE\n          a.guid IN (") : String).data

/-- `c9Head` without the final opening parenthesis. -/
def c9HeadOpen : List Char :=
  (("\n        SELECT a.id\n        FROM addons a\n        \n        LEFT JOIN addons_users au ON (au.addon_id = a.id AND au.position = 0)\n        WHERE\n          a.guid IN ") : String).data

/-- The text of the plain-lookup query for input type `guid` and output
    column `id`, after the IN list; it carries the exclusion condition. -/
def c9Tail : List Char :=
  ((")\n          AND a.guid NOT LIKE 'guid-reused-by-pk-%'\n          \n        GROUP BY a.id\n      ") : String).data

theorem c9_decomposition (raw : List String) :
    (convertQuery ("guid") [("id")] false false (mkEscapedIds raw)).data
      = c9Head ++ ((joinWith (",") (mkEscapedIds raw)).data ++ c9Tail) := by
  show (plainQuery ("guid") [("id")] false (mkEscapedIds raw)).data
      = c9Head ++ ((joinWith (",") (mkEscapedIds raw)).data ++ c9Tail)
  rw [show c9Head = (("\n        SELECT ") : String).data ++
      ((("a.id") : String).data ++
       ((("\n        FROM addons a\n        ") : String).data ++
        ((("\n        LEFT JOIN addons_users au ON (au.addon_id = a.id AND au.position = 0)\n        WHERE\n          a.") : String).data ++
         ((("guid") : String).data ++ (((" IN (") : String).data))))) from by decide]
  rw [show c9Tail = ((")\n          AND a.guid NOT LIKE 'guid-reused-by-pk-%'\n          ") : String).data ++
      (("\n        GROUP BY a.id\n      ") : String).data from by decide]
  unfold plainQuery
  rw [show joinWith (",") (List.map columnMap [("id")]) = (("a.id") : String) from by decide]
  simp [string_data_append, List.append_assoc]

/-- The text of the `user_id`-only query for input type `guid`, before the
    IN list. -/
def c6Head : List Char :=
  (("\n        SELECT au.user_id\n        FROM addons_users au\n        LEFT JOIN addons a ON (a.id = au.addon_id)\n        WHERE a.guid IN (") : String).data

/-- `c6Head` without the final opening parenthesis. -/
def c6HeadOpen : List Char :=
  (("\n        SELECT au.user_id\n        FROM addons_users au\n        LEFT JOIN addons a ON (a.id = au.addon_id)\n        WHERE a.guid IN ") : String).data

/-- The text of the `user_id`-only query after the IN list: no exclusion
    condition appears. -/
def c6Tail : List Char :=
  (((")\n      ") : String)).data

theorem c6_decomposition (raw : List String) :
    (convertQuery ("guid") [("user_id")] false false (mkEscapedIds raw)).data
      = c6Head ++ ((joinWith (",") (mkEscapedIds raw)).data ++ c6Tail) := by
  show (userIdQuery ("guid") (mkEscapedIds raw)).data
      = c6Head ++ ((joinWith (",") (mkEscapedIds raw)).data ++ c6Tail)
  rw [show c6Head = (("\n        SELECT au.user_id\n        FROM addons_users au\n        LEFT JOIN addons a ON (a.id = au.addon_id)\n        WHERE a.") : String).data ++
      ((("guid") : String).data ++ (((" IN (") : String).data)) from by decide]
  unfold userIdQuery
  simp [string_data_append, List.append_assoc, c6Tail]

/-! ## Claim C6 -/

/-- C6: with the user flag off and the output columns being exactly
    `user_id`, the generated query is the ownership-join lookup of the user
    ids of matching add-ons — explicitly, the template over `addons_users`
    joined to `addons`, filtered on the input identifiers — and the query
    contains no occurrence of the guid-reuse exclusion condition. -/
theorem C6_user_id_only_query :
    ∀ (input : String) (wx : Bool) (escapedIds : List String),
      (convertQuery input [("user_id")] false wx escapedIds =
        (("\n        SELECT au.user_id\n        FROM addons_users au\n        LEFT JOIN addons a ON (a.id = au.addon_id)\n        WHERE a.") : String) ++
          input ++ (" IN (") ++ joinWith (",") escapedIds ++ (")\n      ")) ∧
      (∀ raw : List String,
        occ exclPat
          (convertQuery ("guid") [("user_id")] false wx (mkEscapedIds raw)).data = 0) := by
  intro input wx escapedIds
  constructor
  · rfl
  · intro raw
    rw [show convertQuery ("guid") [("user_id")] false wx (mkEscapedIds raw) =
      convertQuery ("guid") [("user_id")] false false (mkEscapedIds raw) from rfl]
    rw [c6_decomposition raw]
    have hne : exclPat ≠ [] := by decide
    have hp : ('(' : Char) ∉ exclPat := by decide
    rw [show c6Head = c6HeadOpen ++ ['('] from by decide, List.append_assoc]
    show occ exclPat
        (c6HeadOpen ++ '(' ::
          ((joinWith (",") (mkEscapedIds raw)).data ++ c6Tail)) = 0
    rw [occ_append_cons hne hp, occ_exclPat_inlist raw c6Tail]
    rw [show occ exclPat c6HeadOpen = 0 from by decide,
      show occ exclPat c6Tail = 0 from by decide]

/-! ## Claim C8 -/

/-- C8: in the expand-to-users flow, `user_id` is appended to the display
    column list exactly when more than one output column was requested, and
    the issued query splits as a SELECT fragment over the originally
    requested columns followed by a filter fragment that does not mention the
    output columns at all, so the WHERE/JOIN logic reflects only the
    originally requested columns. -/
theorem C8_user_id_append :
    ∀ (input : String) (cols : List String) (wx : Bool) (escapedIds : List String),
      ((convertUserFlow input cols wx escapedIds).1 =
        userSelectFragment cols ++ userFilterFragment input wx escapedIds) ∧
      ((convertUserFlow input cols wx escapedIds).2 = cols ++ [("user_id")] ↔
        1 < cols.length) ∧
      ((convertUserFlow input cols wx escapedIds).2 = cols ↔ ¬1 < cols.length) := by
  intro input cols wx escapedIds
  refine ⟨?_, ?_, ?_⟩
  · show userQuery input cols wx escapedIds =
      userSelectFragment cols ++ userFilterFragment input wx escapedIds
    unfold userQuery userSelectFragment userFilterFragment
    simp [string_append_assoc]
  · show userDisplayColumns cols = cols ++ [("user_id")] ↔ 1 < cols.length
    unfold userDisplayColumns
    split_ifs with h
    · exact iff_of_true rfl h
    · constructor
      · intro hEq
        have hl := congrArg List.length hEq
        simp at hl
      · intro hc; exact absurd hc h
  · show userDisplayColumns cols = cols ↔ ¬1 < cols.length
    unfold userDisplayColumns
    split_ifs with h
    · constructor
      · intro hEq
        have hl := congrArg List.length hEq
        simp at hl
      · intro hc; exact absurd h hc
    · exact iff_of_true rfl h

/-! ## Claim C9 -/

/-- C9: for input type `guid`, output columns `["id"]` and both flags off,
    the generated query consists of the SELECT/JOIN head ending in
    `a.guid IN (`, then the comma-joined escaped input identifiers, then the
    closing tail — and the guid-reuse exclusion condition occurs in the whole
    query text exactly once, whatever the identifiers were. -/
theorem C9_guid_query_exclusion_once :
    ∀ rawIds : List String,
      ((convertQuery ("guid") [("id")] false false (mkEscapedIds rawIds)).data =
        c9Head ++ ((joinWith (",") (mkEscapedIds rawIds)).data ++ c9Tail)) ∧
      occ exclPat
        (convertQuery ("guid") [("id")] false false (mkEscapedIds rawIds)).data = 1 := by
  intro raw
  refine ⟨c9_decomposition raw, ?_⟩
  rw [c9_decomposition raw]
  have hne : exclPat ≠ [] := by decide
  have hp : ('(' : Char) ∉ exclPat := by decide
  rw [show c9Head = c9HeadOpen ++ ['('] from by decide, List.append_assoc]
  show occ exclPat
      (c9HeadOpen ++ '(' ::
        ((joinWith (",") (mkEscapedIds raw)).data ++ c9Tail)) = 1
  rw [occ_append_cons hne hp, occ_exclPat_inlist raw c9Tail]
  rw [show occ exclPat c9HeadOpen = 0 from by decide,
    show occ exclPat c9Tail = 1 from by decide]

/-! ## Claim C7 -/

/-- C7: the formatter prints the comma-joined header line exactly when more
    than one output column was requested and at least one data row exists
    (the emitted call list then has two entries, the header first); with a
    single requested column each row's value is emitted raw — the looked-up
    value itself, absent values as the empty string — one per line, with no
    header. -/
theorem C7_output_formatter :
    ∀ (cols : List String) (rows : List (List (String × String))),
      ((convertEmit cols rows).length = 2 ↔ (1 < cols.length ∧ rows ≠ [])) ∧
      (convertEmit cols rows =
        (if 1 < cols.length ∧ rows ≠ [] then [joinWith (",") cols] else []) ++
          [joinWith "\n" (rows.map (convertRowLine cols))]) ∧
      (∀ (c : String) (rows2 : List (List (String × String))),
        convertEmit [c] rows2 =
          [joinWith "\n" (rows2.map fun r => (rowLookup c r).getD "")]) := by
  intro cols rows
  have hcond : (1 < cols.length ∧ 0 < (rows.map (convertRowLine cols)).length) ↔
      (1 < cols.length ∧ rows ≠ []) := by
    rw [List.length_map, List.length_pos]
  have hmain : convertEmit cols rows =
      (if 1 < cols.length ∧ rows ≠ [] then [joinWith (",") cols] else []) ++
        [joinWith "\n" (rows.map (convertRowLine cols))] := by
    unfold convertEmit
    rw [if_congr hcond rfl rfl]
  refine ⟨?_, hmain, ?_⟩
  · rw [hmain]
    split_ifs with h
    · simp [h]
    · simp [h]
  · intro c rows2
    have hrow : ∀ r, convertRowLine [c] r = (rowLookup c r).getD "" := by
      intro r
      unfold convertRowLine
      simp [joinWith]
    have hfun : convertRowLine [c] = fun r => (rowLookup c r).getD "" :=
      funext hrow
    unfold convertEmit
    rw [hfun]
    simp

/-! ## Claim C10 -/

/-- C10: in the convert flow, auto-detection runs on the raw line list (empty
    lines included), the falsy (empty) lines are then removed before the
    escaped SQL IN-list is built — so no empty line contributes a literal, in
    particular the empty literal `""` never occurs — and the
    "entries not found" warning compares the result-row count with the
    filtered line count, not the raw input length (at `["1", ""]` with one
    result row, no warning is issued although the raw length is 2). -/
theorem C10_empty_line_filtering :
    ∀ (raw : List String) (nres : Nat),
      (convertInputType raw ("auto") = detectInput raw) ∧
      (convertEscapedIds raw =
        (raw.filter fun s => s != "").map
          (fun l => ("\"") ++ mysqlEscapeS l ++ "\"")) ∧
      (("") ∉ convertFilteredData raw) ∧
      (("\"\"") ∉ convertEscapedIds raw) ∧
      (convertWarns raw nres = true ↔ nres < (convertFilteredData raw).length) ∧
      (convertWarns [("1"), ""] 1 = false ∧ 1 < ([("1"), ""] : List String).length) := by
  intro raw nres
  refine ⟨rfl, rfl, ?_, ?_, ?_, by decide⟩
  · intro hmem
    rw [convertFilteredData, List.mem_filter] at hmem
    exact absurd hmem.2 (by decide)
  · intro hmem
    unfold convertEscapedIds mkEscapedIds at hmem
    rw [List.mem_map] at hmem
    obtain ⟨l, hl, hwrap⟩ := hmem
    rw [convertFilteredData, List.mem_filter] at hl
    have hlne : l.data ≠ [] := by
      intro hnil
      have : l = "" := string_eq_of_data hnil
      rw [this] at hl
      exact absurd hl.2 (by decide)
    have hesc := mysqlEscape_ne_nil l.data hlne
    have h2 : ((("\"") ++ mysqlEscapeS l ++ "\"")).data.length = 2 := by
      rw [hwrap]
      rfl
    have h3 : ((("\"") ++ mysqlEscapeS l ++ "\"")).data.length =
        (mysqlEscapeS l).data.length + 2 := by
      simp only [string_data_append, List.length_append]
      simp
      omega
    have h4 : (mysqlEscapeS l).data.length = 0 := by omega
    rw [List.length_eq_zero] at h4
    exact hesc h4
  · rw [convertWarns]
    simp

end Amoid
